import Mathlib

/-!
Verification development for the blitz-frost/conv conversion engine.

The Go sources are shallowly embedded below:
* package `numeric` (numeric.go): kind descriptors, the precomputed
  `ratings` table, `RateConversion` and `Convert`;
* `base.go`: `isBasic`, `baseOf`, `base.asTypeRec` / `base.asType`,
  `base.isConcrete` (the `maphash` digest is modelled by using the base
  byte sequence itself as the registry key, i.e. an injective hash);
* the `Library` build-once cache and the `Scheme`/`Inverse` registries,
  `Load`, `fill`, `Build` and the dispatch closure synthesized by `Build`.

Go `reflect.Type` values are modelled by the inductive `GoType`; package
paths are modelled as numeric identifiers (0 = predeclared/unnamed).
Go map iteration order (used by the numeric-substitution scan) is modelled
by passing an explicit enumeration list of the registry.
-/

namespace Conv

/-- The relevant values of Go's `reflect.Kind` enumeration, plus the
package-private pseudo-kind `reflectNumeric = reflect.UnsafePointer + 1`
used as the generic-registry key for numeric kinds. -/
inductive GoKind where
  | bool | int | int8 | int16 | int32 | int64
  | uint | uint8 | uint16 | uint32 | uint64 | uintptr
  | float32 | float64 | complex64 | complex128
  | array | chan | func | interface | map | ptr | slice | string | struct
  | unsafePointer
  | numberG
deriving DecidableEq, Repr, Fintype

/-- Numeric value of each `reflect.Kind` (Go's iota numbering);
`numberG` models `reflectNumeric = reflect.UnsafePointer + 1 = 27`. -/
def GoKind.toByte : GoKind → Nat
  | .bool => 1 | .int => 2 | .int8 => 3 | .int16 => 4 | .int32 => 5 | .int64 => 6
  | .uint => 7 | .uint8 => 8 | .uint16 => 9 | .uint32 => 10 | .uint64 => 11
  | .uintptr => 12 | .float32 => 13 | .float64 => 14 | .complex64 => 15
  | .complex128 => 16 | .array => 17 | .chan => 18 | .func => 19
  | .interface => 20 | .map => 21 | .ptr => 22 | .slice => 23 | .string => 24
  | .struct => 25 | .unsafePointer => 26 | .numberG => 27

/-- Membership in the `numeric.Types` map: the fourteen numeric kinds. -/
def isNumericKind : GoKind → Bool
  | .int | .int8 | .int16 | .int32 | .int64
  | .uint | .uint8 | .uint16 | .uint32 | .uint64
  | .float32 | .float64 | .complex64 | .complex128 => true
  | _ => false

/-- Membership in the package-level `simpleTypes` map of part_001:
all `numeric.Types` kinds plus Bool, String and UnsafePointer. -/
def isSimpleKind (k : GoKind) : Bool :=
  isNumericKind k || k == .bool || k == .string || k == .unsafePointer

/-- Host architecture: Go's `arch = 8 * Types[reflect.Int].Align()`,
either 32 or 64 bits. -/
inductive Arch where
  | a32 | a64
deriving DecidableEq, Repr, Fintype

/-- `arch / 8`: byte size of the platform `int`/`uint`. -/
def Arch.bytes : Arch → Nat
  | .a32 => 4
  | .a64 => 8

/-- `numeric.Alias`: maps `int`/`uint` to their fixed-width alias for the
host architecture and leaves every other kind unchanged. -/
def Alias (a : Arch) (k : GoKind) : GoKind :=
  match k with
  | .int => match a with | .a64 => .int64 | .a32 => .int32
  | .uint => match a with | .a64 => .uint64 | .a32 => .uint32
  | _ => k

/-- `numeric.Nature`: Uint < Int < Float < Complex. -/
inductive Nature where
  | uintN | intN | floatN | complexN
deriving DecidableEq, Repr, Fintype

/-- The iota value of a `Nature` (used for the `<` comparisons). -/
def Nature.rank : Nature → Nat
  | .uintN => 0 | .intN => 1 | .floatN => 2 | .complexN => 3

/-- Inverse of `Nature.rank` (for iterating `for i := d1.Nature; i < d0.Nature`). -/
def Nature.ofRank : Nat → Nature
  | 0 => .uintN | 1 => .intN | 2 => .floatN | _ => .complexN

/-- `numeric.Descriptor`: byte size and nature of a numeric kind. -/
structure NumDescr where
  size : Nat
  nature : Nature
deriving DecidableEq, Repr

/-- The `numeric.Descriptors` map (including the `init`-time entries for
`Int` and `Uint`, whose size is the platform word size). -/
def descrOf (a : Arch) : GoKind → Option NumDescr
  | .uint8 => some ⟨1, .uintN⟩
  | .uint16 => some ⟨2, .uintN⟩
  | .uint32 => some ⟨4, .uintN⟩
  | .uint64 => some ⟨8, .uintN⟩
  | .int8 => some ⟨1, .intN⟩
  | .int16 => some ⟨2, .intN⟩
  | .int32 => some ⟨4, .intN⟩
  | .int64 => some ⟨8, .intN⟩
  | .float32 => some ⟨4, .floatN⟩
  | .float64 => some ⟨8, .floatN⟩
  | .complex64 => some ⟨8, .complexN⟩
  | .complex128 => some ⟨16, .complexN⟩
  | .uint => some ⟨a.bytes, .uintN⟩
  | .int => some ⟨a.bytes, .intN⟩
  | _ => none

/-- The keys of the `Descriptors` map. -/
def descriptorKinds : List GoKind :=
  [.uint8, .uint16, .uint32, .uint64, .int8, .int16, .int32, .int64,
   .float32, .float64, .complex64, .complex128, .uint, .int]

/-- The `nats` grouping built by the `numeric` package's `init`: the set of
byte sizes occurring among descriptors of a given nature. -/
def natSizes (a : Arch) (n : Nature) : List Nat :=
  (((descriptorKinds.filterMap (descrOf a)).filter
      (fun d => d.nature = n)).map (fun d => d.size)).dedup

/-- `numeric.RateConversion`: the precomputed `ratings[dst][src]` entry.
`-1` means impossible; otherwise the count of skipped intermediate sizes.
Kind pairs outside the descriptor table yield the Go map zero value `0`. -/
def RateConversion (a : Arch) (dst src : GoKind) : Int :=
  match descrOf a dst, descrOf a src with
  | some d0, some d1 =>
    let c : Nat := if d0.nature = .complexN ∧ d1.nature.rank < Nature.rank .floatN then 2 else 1
    if d0.nature.rank < d1.nature.rank
        ∨ (d0.nature = d1.nature ∧ d0.size / c < d1.size)
        ∨ (d1.nature.rank < d0.nature.rank ∧ d0.size / c ≤ d1.size) then
      -1
    else
      let r1 := ((List.range d0.nature.rank).filter
          (fun i => d1.nature.rank ≤ i)).foldl
        (fun acc i => acc + ((natSizes a (Nature.ofRank i)).filter
          (fun s => d1.size < s)).length) 0
      let r2 := ((natSizes a d0.nature).filter
        (fun s => d1.size < s ∧ s ≤ d0.size / c)).length
      Int.ofNat (r1 + r2)
  | _, _ => 0

mutual
/-- A Go `reflect.Type` as far as the conv package inspects it.
`simple k` is the predeclared type of a simple kind (bool, string, the
numeric types, unsafe.Pointer); `defined pkg u` is a defined (named) type
with package path `pkg` (a numeric identifier, never 0 for a realizable
defined type) and underlying structure `u`. -/
inductive GoType where
  | simple (k : GoKind)
  | iface
  | array (n : Nat) (elem : GoType)
  | slice (elem : GoType)
  | ptr (elem : GoType)
  | chanT (dir : Nat) (elem : GoType)
  | mapT (key elem : GoType)
  | structT (fields : GoTypeList)
  | funcT (ins outs : GoTypeList) (variadic : Bool)
  | defined (pkg : Nat) (u : GoType)
/-- A list of `GoType` (struct fields, function parameters/results). -/
inductive GoTypeList where
  | nil
  | cons (head : GoType) (tail : GoTypeList)
end

deriving instance DecidableEq for GoType
deriving instance DecidableEq for GoTypeList
deriving instance DecidableEq for Except

/-- `reflect.Type.Kind()`: a defined type has its underlying type's kind. -/
def GoType.kind : GoType → GoKind
  | .simple k => k
  | .iface => .interface
  | .array _ _ => .array
  | .slice _ => .slice
  | .ptr _ => .ptr
  | .chanT _ _ => .chan
  | .mapT _ _ => .map
  | .structT _ => .struct
  | .funcT _ _ _ => .func
  | .defined _ u => u.kind

/-- Number of elements of a `GoTypeList` (`NumField`/`NumIn`/`NumOut`). -/
def GoTypeList.length : GoTypeList → Nat
  | .nil => 0
  | .cons _ t => t.length + 1

/-- Convert a Lean list into a `GoTypeList`. -/
def toGoTypeList : List GoType → GoTypeList
  | [] => .nil
  | t :: ts => .cons t (toGoTypeList ts)

mutual
/-- `isBasic` (base.go): true for undefined types, simple or composed only
of undefined types; interfaces and channels are never basic (the `isBasic`
switch has no `Chan` case). -/
def isBasic : GoType → Bool
  | .simple k => isSimpleKind k
  | .iface => false
  | .array _ e => isBasic e
  | .slice e => isBasic e
  | .ptr e => isBasic e
  | .chanT _ _ => false
  | .mapT k e => isBasic k && isBasic e
  | .structT fs => isBasicList fs
  | .funcT i o _ => isBasicList i && isBasicList o
  | .defined pkg u => if pkg == 0 then isBasic u else false
/-- `isBasic` over a field/parameter list. -/
def isBasicList : GoTypeList → Bool
  | .nil => true
  | .cons h t => isBasic h && isBasicList t
end

mutual
/-- `baseOf` (base.go): the canonical byte sequence describing a type's
memory layout.  Numeric kinds are aliased first; array lengths, struct
field counts and function arity are emitted as (truncated) single bytes. -/
def baseOf (a : Arch) : GoType → List Nat
  | .simple k => [(Alias a k).toByte]
  | .iface => [GoKind.interface.toByte]
  | .array n e => GoKind.array.toByte :: (n % 256) :: baseOf a e
  | .slice e => GoKind.slice.toByte :: baseOf a e
  | .ptr e => GoKind.ptr.toByte :: baseOf a e
  | .chanT d e => GoKind.chan.toByte :: (d % 256) :: baseOf a e
  | .mapT k e => GoKind.map.toByte :: (baseOf a k ++ baseOf a e)
  | .structT fs => GoKind.struct.toByte :: (fs.length % 256) :: baseOfList a fs
  | .funcT i o v =>
      GoKind.func.toByte :: (i.length % 256) :: (o.length % 256)
        :: (if v then 1 else 0) :: (baseOfList a i ++ baseOfList a o)
  | .defined _ u => baseOf a u
/-- `baseOf` concatenated over a field/parameter list. -/
def baseOfList (a : Arch) : GoTypeList → List Nat
  | .nil => []
  | .cons h t => baseOf a h ++ baseOfList a t
end

/-- `base.isConcrete`: scans the byte sequence for an `Interface` kind tag,
skipping the length byte after `Array`/`Struct` tags and the two arity
bytes after a `Func` tag (the variadic byte is scanned as a kind tag,
which is harmless since it is 0 or 1). -/
def isConcrete : List Nat → Bool
  | [] => true
  | b :: rest =>
    if b = GoKind.interface.toByte then false
    else if b = GoKind.array.toByte ∨ b = GoKind.struct.toByte then
      match rest with
      | [] => true
      | _ :: rest2 => isConcrete rest2
    else if b = GoKind.func.toByte then
      match rest with
      | [] => true
      | [_] => true
      | _ :: _ :: rest2 => isConcrete rest2
    else isConcrete rest

/-- The inverse of `GoKind.toByte` restricted to the kinds present in the
`simpleTypes` map (`uintptr` is absent from it). -/
def simpleKindOfByte : Nat → Option GoKind
  | 1 => some .bool
  | 2 => some .int
  | 3 => some .int8
  | 4 => some .int16
  | 5 => some .int32
  | 6 => some .int64
  | 7 => some .uint
  | 8 => some .uint8
  | 9 => some .uint16
  | 10 => some .uint32
  | 11 => some .uint64
  | 13 => some .float32
  | 14 => some .float64
  | 15 => some .complex64
  | 16 => some .complex128
  | 24 => some .string
  | 26 => some .unsafePointer
  | _ => none

/-- Collect a list of possibly-nil types; `none` if any entry is nil
(a `reflect` constructor given a nil type panics). -/
def optionsToList : List (Option GoType) → Option (List GoType)
  | [] => some []
  | none :: _ => none
  | some t :: rest => (optionsToList rest).map (fun ts => t :: ts)

mutual
/-- `base.asTypeRec` (base.go): reconstructs a type from a base byte
sequence, returning a possibly-nil type and the number of consumed bytes.
The execution is step-indexed by `fuel` (the Go code has no such bound):
`none` means the model's fuel ran out, and never arises when enough fuel
is supplied.  `some (Except.error ())` models a Go panic: an out-of-range
index (`x[i]`, or the struct-case `fields[i]` write) or a `reflect`
constructor invoked with a nil type or an invalid argument.  The struct
case is transcribed faithfully, including its cursor starting at the
field-count byte and its write to `fields[i]` (the byte cursor) instead
of `fields[j]`. -/
def asTypeRec : Nat → List Nat → Option (Except Unit (Option GoType × Nat))
  | 0, _ => none
  | _ + 1, [] => some (.error ())
  | fuel + 1, b :: rest =>
    match simpleKindOfByte b with
    | some k => some (.ok (some (.simple k), 1))
    | none =>
      if b = GoKind.array.toByte then
        match rest with
        | [] => some (.error ())
        | n :: rest2 =>
          match asTypeRec fuel rest2 with
          | none => none
          | some (.error e) => some (.error e)
          | some (.ok (none, _)) => some (.error ())
          | some (.ok (some e, c)) => some (.ok (some (.array n e), 2 + c))
      else if b = GoKind.chan.toByte then
        match rest with
        | [] => some (.error ())
        | d :: rest2 =>
          match asTypeRec fuel rest2 with
          | none => none
          | some (.error e) => some (.error e)
          | some (.ok (none, _)) => some (.error ())
          | some (.ok (some e, c)) =>
            if d = 1 ∨ d = 2 ∨ d = 3 then some (.ok (some (.chanT d e), 2 + c))
            else some (.error ())
      else if b = GoKind.func.toByte then
        match rest with
        | ni :: no :: vb :: _ =>
          match decodeParams fuel rest 3 ni with
          | none => none
          | some (.error e) => some (.error e)
          | some (.ok (ins?, i1)) =>
            match decodeParams fuel rest i1 no with
            | none => none
            | some (.error e) => some (.error e)
            | some (.ok (outs?, i2)) =>
              match optionsToList ins?, optionsToList outs? with
              | some ins, some outs =>
                if vb = 1 then
                  match ins.getLast? with
                  | some tl =>
                    if tl.kind = .slice then
                      some (.ok (some (.funcT (toGoTypeList ins) (toGoTypeList outs) true), i2 + 1))
                    else some (.error ())
                  | none => some (.error ())
                else some (.ok (some (.funcT (toGoTypeList ins) (toGoTypeList outs) false), i2 + 1))
              | _, _ => some (.error ())
        | _ => some (.error ())
      else if b = GoKind.map.toByte then
        match asTypeRec fuel rest with
        | none => none
        | some (.error e) => some (.error e)
        | some (.ok (k?, c)) =>
          match asTypeRec fuel (rest.drop c) with
          | none => none
          | some (.error e) => some (.error e)
          | some (.ok (e?, c2)) =>
            match k?, e? with
            | some k, some e => some (.ok (some (.mapT k e), 1 + c + c2))
            | _, _ => some (.error ())
      else if b = GoKind.slice.toByte then
        match asTypeRec fuel rest with
        | none => none
        | some (.error e) => some (.error e)
        | some (.ok (none, _)) => some (.error ())
        | some (.ok (some e, c)) => some (.ok (some (.slice e), 1 + c))
      else if b = GoKind.struct.toByte then
        match rest with
        | [] => some (.error ())
        | n :: _ =>
          match structFields fuel rest (List.replicate n (none : Option GoType)) 0 n with
          | none => none
          | some (.error e) => some (.error e)
          | some (.ok (fields, ri)) =>
            match optionsToList fields with
            | none => some (.error ())
            | some fs => some (.ok (some (.structT (toGoTypeList fs)), ri + 1))
      else some (.ok (none, 0))

/-- The func-case decode loops of `asTypeRec`: decode `count` parameter
types starting at relative cursor `ri` into `rest` (the bytes after the
`Func` kind tag), returning the decoded (possibly-nil) types and the
final cursor. -/
def decodeParams : Nat → List Nat → Nat → Nat →
    Option (Except Unit (List (Option GoType) × Nat))
  | 0, _, _, _ => none
  | _ + 1, _, ri, 0 => some (.ok ([], ri))
  | fuel + 1, rest, ri, n + 1 =>
    match asTypeRec fuel (rest.drop ri) with
    | none => none
    | some (.error e) => some (.error e)
    | some (.ok (t, c)) =>
      match decodeParams fuel rest (ri + c) n with
      | none => none
      | some (.error e) => some (.error e)
      | some (.ok (ts, ri2)) => some (.ok (t :: ts, ri2))

/-- The struct-case loop of `asTypeRec`: `rest` holds the bytes after the
`Struct` kind tag, `ri` is the cursor relative to `rest` (absolute cursor
`i = ri + 1` starts at the field-count byte), and each iteration writes
the decoded type at absolute index `i` of `fields` — Go's `fields[i]`,
not `fields[j]` — panicking (`error`) when that index is out of range. -/
def structFields : Nat → List Nat → List (Option GoType) → Nat → Nat →
    Option (Except Unit (List (Option GoType) × Nat))
  | 0, _, _, _, _ => none
  | _ + 1, _, fields, ri, 0 => some (.ok (fields, ri))
  | fuel + 1, rest, fields, ri, j + 1 =>
    match asTypeRec fuel (rest.drop ri) with
    | none => none
    | some (.error e) => some (.error e)
    | some (.ok (t, c)) =>
      if ri + 1 < fields.length then
        structFields fuel rest (fields.set (ri + 1) t) (ri + c) j
      else some (.error ())
end

/-- `base.asType`: the reconstructed (possibly-nil) type, discarding the
consumed-byte count. -/
def asType (fuel : Nat) (x : List Nat) : Option (Except Unit (Option GoType)) :=
  match asTypeRec fuel x with
  | none => none
  | some (.error e) => some (.error e)
  | some (.ok (t, _)) => some (.ok t)

/-- The impossibility condition exactly as claim C6 words it: half-weight
applied to a complex destination for integer AND float sources. -/
def c6ClaimImpossible (a : Arch) (dst src : GoKind) : Bool :=
  match descrOf a dst, descrOf a src with
  | some d0, some d1 =>
    let c : Nat := if d0.nature = .complexN ∧ d1.nature ≠ .complexN then 2 else 1
    decide (d0.nature.rank < d1.nature.rank
      ∨ (d0.nature = d1.nature ∧ d0.size / c < d1.size)
      ∨ (d1.nature.rank < d0.nature.rank ∧ d0.size / c ≤ d1.size))
  | _, _ => false

/-- The impossibility condition with the claim amended to what the code
does: the complex-destination half-weight applies only to integer
(uint/int) sources, not to float sources. -/
def c6AmendedImpossible (a : Arch) (dst src : GoKind) : Bool :=
  match descrOf a dst, descrOf a src with
  | some d0, some d1 =>
    let c : Nat := if d0.nature = .complexN ∧ d1.nature.rank < Nature.rank .floatN then 2 else 1
    decide (d0.nature.rank < d1.nature.rank
      ∨ (d0.nature = d1.nature ∧ d0.size / c < d1.size)
      ∨ (d1.nature.rank < d0.nature.rank ∧ d0.size / c ≤ d1.size))
  | _, _ => false


/-- A numeric payload: the real and imaginary components of a value.
Conversions rated `≥ 0` are lossless by construction of the rating table,
so `reflect.Value.Convert` along such a conversion is modelled as the
identity on the payload. -/
structure NumPayload where
  re : Int
  im : Int
deriving DecidableEq, Repr

/-- The dynamic content of a non-nil `interface{}` argument of
`numeric.Convert`: a non-nil pointer to a cell of some kind, a typed nil
pointer, or a plain (non-pointer) value of some kind. -/
inductive IVal where
  | ptrTo (k : GoKind) (p : NumPayload)
  | nilPtr (k : GoKind)
  | val (k : GoKind) (p : NumPayload)
deriving DecidableEq, Repr

/-- `reflect.ValueOf(v).Kind()` of an interface content. -/
def IVal.kindOf : IVal → GoKind
  | .ptrTo _ _ => .ptr
  | .nilPtr _ => .ptr
  | .val k _ => k

/-- Outcome of `numeric.Convert`: a returned error, a nil return, or a
runtime panic. -/
inductive ConvResult where
  | err (msg : String)
  | ok
  | panicked
deriving DecidableEq, Repr

/-- `numeric.Convert(dst, src)`: the returned error (or panic) together
with the final state of the destination cell.  A typed-nil pointer
destination has an invalid `Elem()` (kind `Invalid`), hence the
"non-numeric destination" error.  For a `complex128` destination with a
`complex128` source, and for a `complex64` destination with a `complex64`
source, the code calls `reflect.Value.Convert` to a float type on a
complex value, which panics. -/
def Convert (a : Arch) (dst src : Option IVal) : ConvResult × Option IVal :=
  match dst, src with
  | none, _ => (.err "nil input", dst)
  | _, none => (.err "nil input", dst)
  | some d, some s =>
    match d with
    | .val _ _ => (.err "non-pointer destination", dst)
    | .nilPtr _ => (.err "non-numeric destination", dst)
    | .ptrTo dk _ =>
      if isNumericKind dk = false then (.err "non-numeric destination", dst)
      else
        match s with
        | .ptrTo _ _ => (.err "non-numeric source", dst)
        | .nilPtr _ => (.err "non-numeric source", dst)
        | .val sk sp =>
          if isNumericKind sk = false then (.err "non-numeric source", dst)
          else if RateConversion a dk sk = -1 then (.err "invalid conversion", dst)
          else if dk = .complex128 ∧ sk ≠ .complex64 then
            if sk = .complex128 then (.panicked, dst)
            else (.ok, some (.ptrTo dk ⟨sp.re, 0⟩))
          else if dk = .complex64 then
            if sk = .complex64 then (.panicked, dst)
            else (.ok, some (.ptrTo dk ⟨sp.re, 0⟩))
          else (.ok, some (.ptrTo dk sp))

/-- Association-list lookup with the newest binding first: Go map reads,
with prepending as overwriting insertion. -/
def alookup {κ α : Type} [DecidableEq κ] : List (κ × α) → κ → Option α
  | [], _ => none
  | (k, v) :: rest, t => if k = t then some v else alookup rest t

/-- `Library[T]` (part_000): a build-once cache over a builder. -/
structure LibraryM (T : Type) where
  m : List (GoType × T)
  b : GoType → Option T
  zero : T

/-- `NewLibrary`: empty cache over a builder and a zero value. -/
def NewLibrary {T : Type} (b : GoType → Option T) (zero : T) : LibraryM T :=
  ⟨[], b, zero⟩

/-- `Library.Get` in its sequential semantics: the first lookup is the
read-locked check, the second the re-check under the write lock (in a
sequential run the map is unchanged between the two).  The returned `Bool`
records whether the wrapped builder was invoked during this call. -/
def LibraryM.Get {T : Type} (x : LibraryM T) (t : GoType) : T × LibraryM T × Bool :=
  match alookup x.m t with
  | some o => (o, x, false)
  | none =>
    match alookup x.m t with
    | some o => (o, x, false)
    | none =>
      let o := match x.b t with | some o => o | none => x.zero
      (o, { x with m := (t, o) :: x.m }, true)

/-- Run a sequence of `Get` calls, returning the trace of
(request, returned value, builder-invoked) triples and the final state. -/
def runGets {T : Type} (x : LibraryM T) : List GoType → List (GoType × T × Bool) × LibraryM T
  | [] => ([], x)
  | t :: ts =>
    let r := x.Get t
    let rec2 := runGets r.2.1 ts
    ((t, r.1, r.2.2) :: rec2.1, rec2.2)

/-- Number of builder invocations for type `t` in a `runGets` trace. -/
def buildCount {T : Type} (tr : List (GoType × T × Bool)) (t : GoType) : Nat :=
  (tr.filter (fun e => decide (e.1 = t) && e.2.2)).length

/-- Direction of an engine: `Scheme` converts into a fixed destination
type, `Inverse` converts from a fixed source type. -/
inductive Dir where
  | scheme | inverse
deriving DecidableEq, Repr

/-- Conversion implementations, tagged by provenance: a user-loaded
function value (`user`), the `loadSpecific` wrapper (`call`), the
`loadBasic` wrapper (`basicWrap`), the `loadGeneric` wrapper
(`genericWrap`), the `MakeFunc(convBasic)` value created by `fill`
(`fillConv`), the bridging function synthesized by the dispatch
substitution step (`subst`), and `convInvalid` (`invalid`). -/
inductive Impl where
  | user (id : Nat)
  | call (f : Impl)
  | basicWrap (f : Impl)
  | genericWrap (f : Impl)
  | fillConv
  | subst (dir : Dir) (k : GoKind) (inner : Impl)
  | invalid
deriving DecidableEq, Repr

/-- The `RateConversion` call of the substitution scan: the Scheme scans
`RateConversion(kk, k)` and the Inverse scans `RateConversion(k, kk)`,
where `kk` is the registered kind and `k` the counter-type's kind. -/
def rateDir (a : Arch) (dir : Dir) (kk k : GoKind) : Int :=
  match dir with
  | .scheme => RateConversion a kk k
  | .inverse => RateConversion a k kk

/-- The body of the substitution-scan loop of the dispatch function:
`best`/`acc` carry `bestRating` and the currently best entry, and the
entry list is one enumeration order of the Go map `x.numeric`. -/
def scanGo (a : Arch) (dir : Dir) (k : GoKind) :
    List (GoKind × Impl) → Int → Option (GoKind × Impl) → Option (GoKind × Impl)
  | [], _, acc => acc
  | (kk, fn) :: rest, best, acc =>
    let r := rateDir a dir kk k
    if 0 ≤ r ∧ (r < best ∨ best = -1) then scanGo a dir k rest r (some (kk, fn))
    else scanGo a dir k rest best acc

/-- The substitution scan over one enumeration order of the numeric
registry, starting from `bestRating = -1`. -/
def numericScan (a : Arch) (dir : Dir) (k : GoKind)
    (entries : List (GoKind × Impl)) : Option (GoKind × Impl) :=
  scanGo a dir k entries (-1) none

/-- Registries and cache of a `Scheme` (part_001); an `Inverse` has the
identical registry structure with the fixed type on the source side.
`basic` is keyed by the base byte sequence (standing for its hash). -/
structure SchemeState where
  cache : List (GoType × Impl)
  specific : List (GoType × Impl)
  generic : List (GoKind × Impl)
  basic : List (List Nat × Impl)
  numeric : List (GoKind × Impl)
  fixedType : GoType
deriving DecidableEq

/-- `MakeScheme`/`MakeInverse`: empty registries around a fixed type. -/
def MakeScheme (t : GoType) : SchemeState :=
  ⟨[], [], [], [], [], t⟩

/-- `Scheme.loadSpecific` (identical in Inverse). -/
def loadSpecific (s : SchemeState) (t : GoType) (f : Impl) : SchemeState :=
  { s with specific := (t, .call f) :: s.specific }

/-- `Scheme.loadGeneric` (identical in Inverse). -/
def loadGeneric (s : SchemeState) (k : GoKind) (f : Impl) : SchemeState :=
  { s with generic := (k, .genericWrap f) :: s.generic }

/-- `Scheme.loadBasic` (identical in Inverse): registers the specific
entry, the basic entry under the type's base, and — when `original` —
the numeric mirror under the type's own (unaliased) kind. -/
def loadBasic (a : Arch) (s : SchemeState) (t : GoType) (f : Impl)
    (original : Bool) : SchemeState :=
  let s1 := loadSpecific s t f
  let s2 := { s1 with basic := (baseOf a t, .basicWrap f) :: s1.basic }
  if original && isNumericKind t.kind then
    { s2 with numeric := (t.kind, .basicWrap f) :: s2.numeric }
  else s2

/-- The six generic-marker types of the conv package (`Array{}`,
`Number{}`, `Slice{}`, `Map{}`, `Pointer{}`, `Struct{}`): defined struct
types whose only relevant property is their identity, modelled with
reserved package identifiers. -/
def arrayType : GoType := .defined 9001 (.structT .nil)

/-- The `Number{}` marker type. -/
def numericType : GoType := .defined 9002 (.structT .nil)

/-- The `Slice{}` marker type. -/
def sliceType : GoType := .defined 9003 (.structT .nil)

/-- The `Map{}` marker type. -/
def mapType : GoType := .defined 9004 (.structT .nil)

/-- The `Pointer{}` marker type. -/
def pointerType : GoType := .defined 9005 (.structT .nil)

/-- The `Struct{}` marker type. -/
def structType : GoType := .defined 9006 (.structT .nil)

/-- `Scheme.Load`/`Inverse.Load` after signature validation: `t` is the
varying-side type of the loaded function (`fn`'s second input for a
Scheme, its first input's element for an Inverse) and `id` identifies the
function value.  Basic types go to `loadBasic` (with the numeric mirror),
the six marker types to `loadGeneric`, everything else to `loadSpecific`. -/
def Load (a : Arch) (s : SchemeState) (t : GoType) (id : Nat) : SchemeState :=
  if isBasic t then loadBasic a s t (.user id) true
  else if t = arrayType then loadGeneric s .array (.user id)
  else if t = numericType then loadGeneric s .numberG (.user id)
  else if t = sliceType then loadGeneric s .slice (.user id)
  else if t = mapType then loadGeneric s .map (.user id)
  else if t = pointerType then loadGeneric s .ptr (.user id)
  else if t = structType then loadGeneric s .struct (.user id)
  else loadSpecific s t (.user id)

/-- `Scheme.fill`/`Inverse.fill`: install the implicit reinterpretation
conversion when the fixed type's base is concrete and no basic entry
covers it.  `asType` runs before any registry mutation, so a panic there
(`Except.error`) leaves the registries unchanged; `some (.ok none)` from
`asType` feeds a nil type to `reflect.PtrTo`/`FuncOf`, which panics. -/
def fill (a : Arch) (fuel : Nat) (s : SchemeState) : Option (Except Unit SchemeState) :=
  if isConcrete (baseOf a s.fixedType) = false then some (.ok s)
  else if (alookup s.basic (baseOf a s.fixedType)).isSome then some (.ok s)
  else
    match asType fuel (baseOf a s.fixedType) with
    | none => none
    | some (.error _) => some (.error ())
    | some (.ok none) => some (.error ())
    | some (.ok (some t)) => some (.ok (loadBasic a s t .fillConv true))

/-- Result of `Build`: the "empty scheme"/"empty inverse" error, a panic
inside `fill`, or a built dispatch function over the filled registries. -/
inductive BuildOutcome where
  | emptyErr
  | panicked
  | built (s : SchemeState)
deriving DecidableEq

/-- `Scheme.Build`/`Inverse.Build` restricted to the registry logic: the
`fn`-signature validation (`evalRef`), which precedes this and is
independent of the registries, is assumed to succeed.  Note the emptiness
check runs AFTER `fill`. -/
def Build (a : Arch) (fuel : Nat) (s : SchemeState) : Option BuildOutcome :=
  match fill a fuel s with
  | none => none
  | some (.error _) => some .panicked
  | some (.ok s2) =>
    if s2.specific.isEmpty && s2.generic.isEmpty && s2.basic.isEmpty then some .emptyErr
    else some (.built s2)

/-- `true` exactly for the `emptyErr` outcome. -/
def BuildOutcome.isEmptyErr : BuildOutcome → Bool
  | .emptyErr => true
  | _ => false

/-- `true` exactly for a `built` outcome. -/
def BuildOutcome.isBuilt : BuildOutcome → Bool
  | .built _ => true
  | _ => false

/-- The generic-registry key for a counter-type's kind: numeric kinds are
mapped to the `reflectNumeric` pseudo-kind. -/
def kGenOf (t : GoType) : GoKind :=
  if isNumericKind t.kind then .numberG else t.kind

/-- One invocation of the dispatch closure synthesized by `Build`, for
counter-type `t`: the cache, specific, generic and basic registries are
consulted in that order, then numeric substitution, then the invalid
marker.  `enum` is the enumeration order in which Go's map iteration
presents the numeric registry for this call.  In the substitution branch
the freshly loaded basic entry is read back from `x.basic[h]` (always
present, since `h` is the base of the counter-type's numeric kind, the
very key `loadBasic` just wrote; `getD .invalid` stands for the nil map
read that cannot occur).  Returns the invoked implementation and the
updated state. -/
def dispatch (a : Arch) (dir : Dir) (s : SchemeState)
    (enum : List (GoKind × Impl)) (t : GoType) : Impl × SchemeState :=
  match alookup s.cache t with
  | some c => (c, s)
  | none =>
    match alookup s.specific t with
    | some f => (f, { s with cache := (t, f) :: s.cache })
    | none =>
      match alookup s.generic (kGenOf t) with
      | some f => (f, { s with cache := (t, f) :: s.cache })
      | none =>
        match alookup s.basic (baseOf a t) with
        | some f => (f, { s with cache := (t, f) :: s.cache })
        | none =>
          if isNumericKind t.kind then
            match numericScan a dir t.kind enum with
            | some (bestKind, best) =>
              ((alookup (loadBasic a s (.simple t.kind)
                    (.subst dir bestKind best) false).basic (baseOf a t)).getD .invalid,
                { loadBasic a s (.simple t.kind) (.subst dir bestKind best) false with
                  cache := (t, (alookup (loadBasic a s (.simple t.kind)
                      (.subst dir bestKind best) false).basic (baseOf a t)).getD .invalid)
                    :: (loadBasic a s (.simple t.kind)
                        (.subst dir bestKind best) false).cache })
            | none =>
              (.invalid, { s with basic := (baseOf a t, .invalid) :: s.basic,
                                  cache := (t, .invalid) :: s.cache })
          else (.invalid, { s with cache := (t, .invalid) :: s.cache })

/-- The operations whose registry effects the engine performs after
construction: `Load`, `Build` (its `fill` mutation) and dispatch calls. -/
inductive Op where
  | load (t : GoType) (id : Nat)
  | buildOp (fuel : Nat)
  | dispatchOp (t : GoType) (enum : List (GoKind × Impl))

/-- Registry effect of one operation.  For `buildOp`, a `fill` panic (or
model fuel exhaustion) happens before `fill` mutates anything, so the
state is unchanged. -/
def applyOp (a : Arch) (dir : Dir) (s : SchemeState) : Op → SchemeState
  | .load t id => Load a s t id
  | .buildOp fuel =>
    match fill a fuel s with
    | some (.ok s2) => s2
    | _ => s
  | .dispatchOp t enum => (dispatch a dir s enum t).2

/-- Registry effect of a sequence of operations. -/
def applyOps (a : Arch) (dir : Dir) (s : SchemeState) (ops : List Op) : SchemeState :=
  ops.foldl (applyOp a dir) s

/-- Base bytes of a type of numeric kind: the single aliased kind byte.
Any `GoType` whose kind is numeric is a numeric simple type or a defined
type over one, so its base equals the base of `numeric.Types[kind]`. -/
theorem baseOf_numeric : ∀ (a : Arch) (t : GoType), isNumericKind t.kind = true →
    baseOf a t = [(Alias a t.kind).toByte]
  | _, .simple _, _ => rfl
  | a, .defined _ u, h => baseOf_numeric a u h
  | _, .iface, h => by simp [GoType.kind, isNumericKind] at h
  | _, .array _ _, h => by simp [GoType.kind, isNumericKind] at h
  | _, .slice _, h => by simp [GoType.kind, isNumericKind] at h
  | _, .ptr _, h => by simp [GoType.kind, isNumericKind] at h
  | _, .chanT _ _, h => by simp [GoType.kind, isNumericKind] at h
  | _, .mapT _ _, h => by simp [GoType.kind, isNumericKind] at h
  | _, .structT _, h => by simp [GoType.kind, isNumericKind] at h
  | _, .funcT _ _ _, h => by simp [GoType.kind, isNumericKind] at h

/-- C6 (counterexample): at destination `complex64` and source `float32`
the claim's condition (half-weight also for float sources) asserts
impossibility, but `RateConversion` yields the non-negative cost `2`
(the code halves the complex destination only for integer sources, and
`complex64` does hold any `float32` losslessly). -/
theorem c6_counterexample :
    ¬ ((RateConversion .a64 .complex64 .float32 = -1) ↔
        c6ClaimImpossible .a64 .complex64 .float32 = true) := by
  decide

/-- C6 (amended): for all numeric kind pairs on both architectures,
`RateConversion dst src = -1` exactly when the destination's nature is
strictly less expressive, or natures are equal with a strictly smaller
destination, or the destination's nature is greater with too small a
size — where the complex-destination half-weight applies only to integer
(uint/int) sources. -/
theorem c6_rate_impossible_iff (a : Arch) (dst src : GoKind)
    (hd : isNumericKind dst = true) (hs : isNumericKind src = true) :
    (RateConversion a dst src = -1) ↔ c6AmendedImpossible a dst src = true := by
  revert hd hs
  revert a dst src
  decide

/-- C6 witness: the amended equivalence at `dst = uint8`, `src = int8`. -/
theorem c6_witness :
    (RateConversion .a64 .uint8 .int8 = -1) ↔
      c6AmendedImpossible .a64 .uint8 .int8 = true :=
  c6_rate_impossible_iff .a64 .uint8 .int8 (by decide) (by decide)

/-- C3 (code evaluation at the failing input): encoding the unnamed type
`struct { F0 int64 }` gives `[25, 1, 6]`, but reconstructing panics
(`asTypeRec`'s struct case decodes starting at the field-count byte and
writes to `fields[i]`, the byte cursor); reconstruction of a pointer base
returns a nil type (no `Ptr` case in the switch), so `asType` is not the
inverse of `baseOf` on struct and pointer bases. -/
theorem c3_struct_roundtrip_panics :
    baseOf .a64 (.structT (.cons (.simple .int64) .nil)) = [25, 1, 6] ∧
    asType 100 (baseOf .a64 (.structT (.cons (.simple .int64) .nil))) = some (.error ()) ∧
    asType 100 (baseOf .a64 (.ptr (.simple .int64))) = some (.ok none) := by
  decide

/-- C2 (counterexample): a `Scheme` to destination type `int64` on which
no rule was ever loaded builds successfully — `fill` runs before the
emptiness check and installs the implicit reinterpretation rule, so no
"empty scheme" error is returned and the dispatch function is installed. -/
theorem c2_counterexample :
    (Build .a64 100 (MakeScheme (.simple .int64))).map BuildOutcome.isEmptyErr = some false ∧
    (Build .a64 100 (MakeScheme (.simple .int64))).map BuildOutcome.isBuilt = some true := by
  decide

/-- C2 (amended): on a `Scheme`/`Inverse` with no registered rule, `Build`
returns the empty-ruleset error exactly when the fixed type's base is not
concrete; when it is concrete, the implicit layout-reinterpretation
fallback installed by `fill` satisfies the non-emptiness check (so `Build`
either succeeds or panics inside `fill`, but never reports emptiness). -/
theorem c2_empty_iff_not_concrete (a : Arch) (fuel : Nat) (dst : GoType)
    (out : BuildOutcome) (h : Build a fuel (MakeScheme dst) = some out) :
    out.isEmptyErr = true ↔ isConcrete (baseOf a dst) = false := by
  unfold Build fill MakeScheme at h
  by_cases hc : isConcrete (baseOf a dst) = false
  · simp [hc, List.isEmpty] at h
    simp [← h, BuildOutcome.isEmptyErr, hc]
  · simp [hc, alookup] at h
    rcases hr : asType fuel (baseOf a dst) with _ | r
    · rw [hr] at h
      simp at h
    · rw [hr] at h
      rcases r with _ | t
      · simp at h
        simp [← h, BuildOutcome.isEmptyErr, hc]
      · rcases t with _ | t
        · simp at h
          simp [← h, BuildOutcome.isEmptyErr, hc]
        · simp [loadBasic, loadSpecific, List.isEmpty] at h
          rcases hnk : isNumericKind t.kind with _ | _ <;>
            simp [hnk] at h <;>
            simp [← h, BuildOutcome.isEmptyErr, hc]

/-- C2 witness: a destination containing an interface (`[]interface{}`)
has a non-concrete base, and `Build` on the empty scheme for it does
return the empty-scheme error. -/
theorem c2_witness :
    BuildOutcome.emptyErr.isEmptyErr = true ↔
      isConcrete (baseOf .a64 (.slice .iface)) = false :=
  c2_empty_iff_not_concrete .a64 100 (.slice .iface) .emptyErr (by decide)

/-- Full specification of the substitution-scan loop, generalized over the
running `bestRating`/best-entry accumulator: a `none` result means nothing
viable was seen, and a `some` result is a viable entry of minimal rate. -/
theorem scanGo_spec (a : Arch) (dir : Dir) (k : GoKind) :
    ∀ (l : List (GoKind × Impl)) (best : Int) (acc : Option (GoKind × Impl)),
      (acc = none → best = -1) →
      (∀ q0, acc = some q0 → rateDir a dir q0.1 k = best ∧ 0 ≤ best) →
      (scanGo a dir k l best acc = none →
        acc = none ∧ ∀ r ∈ l, ¬ 0 ≤ rateDir a dir r.1 k) ∧
      (∀ q, scanGo a dir k l best acc = some q →
        ((q ∈ l ∧ 0 ≤ rateDir a dir q.1 k) ∨ acc = some q) ∧
        (∀ q0, acc = some q0 → rateDir a dir q.1 k ≤ rateDir a dir q0.1 k) ∧
        (∀ r ∈ l, 0 ≤ rateDir a dir r.1 k → rateDir a dir q.1 k ≤ rateDir a dir r.1 k))
  | [], best, acc, h1, h2 => by
      constructor
      · intro hres
        simp only [scanGo] at hres
        exact ⟨hres, by simp⟩
      · intro q hres
        simp only [scanGo] at hres
        refine ⟨Or.inr hres, ?_, by simp⟩
        intro q0 hq0
        rw [hres] at hq0
        cases hq0
        exact le_refl _
  | (kk, fn) :: rest, best, acc, h1, h2 => by
      by_cases hcond : 0 ≤ rateDir a dir kk k ∧ (rateDir a dir kk k < best ∨ best = -1)
      · have ih := scanGo_spec a dir k rest (rateDir a dir kk k) (some (kk, fn))
          (fun hh => by cases hh)
          (fun q0 hq0 => by cases hq0; exact ⟨rfl, hcond.1⟩)
        have hstep : scanGo a dir k ((kk, fn) :: rest) best acc
            = scanGo a dir k rest (rateDir a dir kk k) (some (kk, fn)) := by
          simp only [scanGo]
          rw [if_pos hcond]
        rw [hstep]
        constructor
        · intro hres
          rcases (ih.1 hres).1 with h
          cases h
        · intro q hres
          rcases ih.2 q hres with ⟨hmem, hleacc, hmin⟩
          have hleh : rateDir a dir q.1 k ≤ rateDir a dir kk k := hleacc (kk, fn) rfl
          have hqmem : q ∈ (kk, fn) :: rest ∧ 0 ≤ rateDir a dir q.1 k := by
            rcases hmem with ⟨hm, hv⟩ | he
            · exact ⟨List.mem_cons_of_mem _ hm, hv⟩
            · cases he
              exact ⟨List.mem_cons_self _ _, hcond.1⟩
          refine ⟨Or.inl hqmem, ?_, ?_⟩
          · intro q0 hq0
            rcases h2 q0 hq0 with ⟨hr0, hb0⟩
            rcases hcond.2 with hlt | hm1
            · rw [← hr0] at hlt
              exact le_of_lt (lt_of_le_of_lt hleh hlt)
            · rw [hm1] at hb0
              exact absurd hb0 (by norm_num)
          · intro r hr hvr
            rcases List.mem_cons.mp hr with he | hm
            · rw [he]
              exact hleh
            · exact hmin r hm hvr
      · have ih := scanGo_spec a dir k rest best acc h1 h2
        have hstep : scanGo a dir k ((kk, fn) :: rest) best acc
            = scanGo a dir k rest best acc := by
          simp only [scanGo]
          rw [if_neg hcond]
        rw [hstep]
        constructor
        · intro hres
          rcases ih.1 hres with ⟨hacc, hall⟩
          refine ⟨hacc, ?_⟩
          intro r hr
          rcases List.mem_cons.mp hr with he | hm
          · intro hv
            rw [he] at hv
            exact hcond ⟨hv, Or.inr (h1 hacc)⟩
          · exact hall r hm
        · intro q hres
          rcases ih.2 q hres with ⟨hmem, hleacc, hmin⟩
          have hmem2 : (q ∈ (kk, fn) :: rest ∧ 0 ≤ rateDir a dir q.1 k) ∨ acc = some q := by
            rcases hmem with ⟨hm, hv⟩ | he
            · exact Or.inl ⟨List.mem_cons_of_mem _ hm, hv⟩
            · exact Or.inr he
          refine ⟨hmem2, hleacc, ?_⟩
          intro r hr hvr
          rcases List.mem_cons.mp hr with he | hm
          · have hb1 : ¬ (rateDir a dir kk k < best ∨ best = -1) := by
              intro hor
              rw [he] at hvr
              exact hcond ⟨hvr, hor⟩
            push_neg at hb1
            rcases hb1 with ⟨hble, hbne⟩
            rcases hacc : acc with _ | q0
            · exact absurd (h1 hacc) hbne
            · have hq0 := (h2 q0 hacc).1
              have := hleacc q0 hacc
              rw [he]
              calc rateDir a dir q.1 k ≤ rateDir a dir q0.1 k := this
                _ = best := hq0
                _ ≤ rateDir a dir kk k := hble
          · exact hmin r hm hvr

/-- C5 (amended, minimality half): whenever some registered numeric kind
is a viable substitute for counter-kind `k` (rate ≥ 0 in the direction the
engine scans), the scan over ANY enumeration order of the numeric registry
returns a viable entry whose rate is minimal among all viable entries; in
particular if exactly one of two rules rates strictly lower, that rule is
selected no matter how Go enumerates the map. -/
theorem c5_scan_minimal (a : Arch) (dir : Dir) (k : GoKind)
    (l : List (GoKind × Impl)) (p : GoKind × Impl)
    (hp : p ∈ l) (hv : 0 ≤ rateDir a dir p.1 k) :
    ∃ q, numericScan a dir k l = some q ∧ q ∈ l ∧ 0 ≤ rateDir a dir q.1 k ∧
      ∀ r ∈ l, 0 ≤ rateDir a dir r.1 k → rateDir a dir q.1 k ≤ rateDir a dir r.1 k := by
  have hs := scanGo_spec a dir k l (-1) none (fun _ => rfl) (fun q0 h => by cases h)
  rcases hres : scanGo a dir k l (-1) none with _ | q
  · rcases hs.1 hres with ⟨_, hall⟩
    exact absurd hv (hall p hp)
  · rcases hs.2 q hres with ⟨hmem, _, hmin⟩
    rcases hmem with ⟨hm, hv2⟩ | hbad
    · exact ⟨q, by rw [numericScan]; exact hres, hm, hv2, hmin⟩
    · cases hbad

/-- C5 witness: with rules for `int32` (rate 1 for an `int16` source) and
`float64` (rate 4), the scan returns a minimal-rate entry. -/
theorem c5_witness :
    ∃ q, numericScan .a64 .scheme .int16 [(.float64, .user 1), (.int32, .user 2)] = some q ∧
      q ∈ [((.float64 : GoKind), Impl.user 1), (.int32, .user 2)] ∧
      0 ≤ rateDir .a64 .scheme q.1 .int16 ∧
      ∀ r ∈ [((.float64 : GoKind), Impl.user 1), (.int32, .user 2)],
        0 ≤ rateDir .a64 .scheme r.1 .int16 →
          rateDir .a64 .scheme q.1 .int16 ≤ rateDir .a64 .scheme r.1 .int16 :=
  c5_scan_minimal .a64 .scheme .int16 _ (.float64, .user 1) (by decide) (by decide)

/-- C5 (counterexample to determinism on ties): `float64` and `complex64`
both rate 4 as substitutes for an `int16` source; the two enumeration
orders of the same two-entry registry (both realizable Go map iteration
orders) make the scan select different kinds, so the tie is not broken
deterministically. -/
theorem c5_tie_nondeterministic :
    rateDir .a64 .scheme .float64 .int16 = 4 ∧
    rateDir .a64 .scheme .complex64 .int16 = 4 ∧
    List.Perm [((.float64 : GoKind), Impl.user 1), (.complex64, .user 2)]
      [((.complex64 : GoKind), Impl.user 2), (.float64, .user 1)] ∧
    numericScan .a64 .scheme .int16 [(.float64, .user 1), (.complex64, .user 2)]
      = some (.float64, .user 1) ∧
    numericScan .a64 .scheme .int16 [(.complex64, .user 2), (.float64, .user 1)]
      = some (.complex64, .user 2) := by
  refine ⟨by decide, by decide, List.Perm.swap _ _ _, by decide, by decide⟩

/-- C7 (code evaluation at the failing input): on a 64-bit host, loading a
rule for `int` (id 1) and then one for `int64` (id 2) overwrites only the
shared `basic` entry.  The `numeric` registry keeps BOTH `Int` and `Int64`
entries (so the substitution scan over one realizable map order still
selects the stale `int` rule — both rate 3 for an `int8` source), and the
`specific` registry still dispatches an `int` counter-type to the stale
rule. -/
theorem c7_alias_not_overwritten :
    (Load .a64 (Load .a64 (MakeScheme (.simple .string)) (.simple .int) 1)
        (.simple .int64) 2).numeric
      = [(.int64, .basicWrap (.user 2)), (.int, .basicWrap (.user 1))] ∧
    alookup (Load .a64 (Load .a64 (MakeScheme (.simple .string)) (.simple .int) 1)
        (.simple .int64) 2).basic [GoKind.int64.toByte] = some (.basicWrap (.user 2)) ∧
    RateConversion .a64 .int .int8 = 3 ∧
    RateConversion .a64 .int64 .int8 = 3 ∧
    numericScan .a64 .scheme .int8
        [(.int, .basicWrap (.user 1)), (.int64, .basicWrap (.user 2))]
      = some (.int, .basicWrap (.user 1)) ∧
    List.Perm [((.int : GoKind), Impl.basicWrap (.user 1)), (.int64, .basicWrap (.user 2))]
      (Load .a64 (Load .a64 (MakeScheme (.simple .string)) (.simple .int) 1)
        (.simple .int64) 2).numeric ∧
    (dispatch .a64 .scheme
        (Load .a64 (Load .a64 (MakeScheme (.simple .string)) (.simple .int) 1)
          (.simple .int64) 2) [] (.simple .int)).1 = .call (.user 1) := by
  refine ⟨by decide, by decide, by decide, by decide, by decide, ?_, by decide⟩
  exact List.Perm.swap _ _ _

/-- C1: with the resolution cache missing the counter-type, the dispatch
closure consults `specific`, then `generic` (numeric kinds under the
`reflectNumeric` pseudo-kind), then `basic`, then numeric substitution,
returning the first applicable registry's implementation; in particular a
`specific` hit is returned regardless of the other registries' contents. -/
theorem c1_dispatch_priority (a : Arch) (dir : Dir) (s : SchemeState)
    (enum : List (GoKind × Impl)) (t : GoType)
    (hc : alookup s.cache t = none) :
    (∀ f, alookup s.specific t = some f → (dispatch a dir s enum t).1 = f) ∧
    (alookup s.specific t = none →
      (∀ f, alookup s.generic (kGenOf t) = some f → (dispatch a dir s enum t).1 = f) ∧
      (alookup s.generic (kGenOf t) = none →
        (∀ f, alookup s.basic (baseOf a t) = some f → (dispatch a dir s enum t).1 = f) ∧
        (alookup s.basic (baseOf a t) = none → isNumericKind t.kind = true →
          ∀ kk g, numericScan a dir t.kind enum = some (kk, g) →
            (dispatch a dir s enum t).1 = .basicWrap (.subst dir kk g)))) := by
  constructor
  · intro f hf
    simp [dispatch, hc, hf]
  · intro hs
    constructor
    · intro f hf
      simp [dispatch, hc, hs, hf]
    · intro hg
      constructor
      · intro f hf
        simp [dispatch, hc, hs, hg, hf]
      · intro hb hn kk g hscan
        have hbase := baseOf_numeric a t hn
        rw [hbase] at hb
        simp [dispatch, hc, hs, hg, hb, hn, hscan, loadBasic, loadSpecific, hbase,
          baseOf, alookup]

/-- C1 witness: a scheme holding both a `specific` rule (id 1) for the
defined numeric type and a generic `Number` rule (id 2) that also applies;
dispatch returns the specific rule's implementation. -/
theorem c1_witness :
    alookup (Load .a64 (Load .a64 (MakeScheme (.simple .string))
        (.defined 7 (.simple .int8)) 1) numericType 2).generic
      (kGenOf (.defined 7 (.simple .int8))) = some (.genericWrap (.user 2)) ∧
    (dispatch .a64 .scheme
        (Load .a64 (Load .a64 (MakeScheme (.simple .string))
          (.defined 7 (.simple .int8)) 1) numericType 2)
        [] (.defined 7 (.simple .int8))).1 = .call (.user 1) := by
  refine ⟨by decide, ?_⟩
  exact (c1_dispatch_priority .a64 .scheme _ [] _ (by decide)).1 _ (by decide)

/-- C10: `numeric.Convert` validates its inputs: nil inputs, a non-pointer
destination, a non-numeric destination or source, and a pair rated `-1`
each produce the code's descriptive error (not a panic) with the
destination left untouched; and whenever the result is not a nil return
(errors and the complex-identity panics alike) the destination is
unmodified, while a nil return leaves the destination written as a
numeric cell. -/
theorem c10_convert_validates (a : Arch) (dst src : Option IVal) :
    ((Convert a dst src).1 ≠ .ok → (Convert a dst src).2 = dst) ∧
    (dst = none ∨ src = none → (Convert a dst src).1 = .err "nil input") ∧
    (∀ k p s0, dst = some (.val k p) → src = some s0 →
      (Convert a dst src).1 = .err "non-pointer destination") ∧
    (∀ k s0, dst = some (.nilPtr k) → src = some s0 →
      (Convert a dst src).1 = .err "non-numeric destination") ∧
    (∀ k p s0, dst = some (.ptrTo k p) → isNumericKind k = false → src = some s0 →
      (Convert a dst src).1 = .err "non-numeric destination") ∧
    (∀ k p s0, dst = some (.ptrTo k p) → isNumericKind k = true → src = some s0 →
      isNumericKind s0.kindOf = false →
      (Convert a dst src).1 = .err "non-numeric source") ∧
    (∀ dk dp sk sp, dst = some (.ptrTo dk dp) → isNumericKind dk = true →
      src = some (.val sk sp) → isNumericKind sk = true →
      RateConversion a dk sk = -1 →
      (Convert a dst src).1 = .err "invalid conversion") ∧
    ((Convert a dst src).1 = .ok → ∃ dk p, (Convert a dst src).2 = some (.ptrTo dk p)) := by
  refine ⟨?_, ?_, ?_, ?_, ?_, ?_, ?_, ?_⟩
  · intro hne
    rcases dst with _ | d
    · simp [Convert]
    rcases src with _ | s
    · simp [Convert]
    rcases d with ⟨dk, dp⟩ | dk2 | ⟨vk, vp⟩
    · rcases s with ⟨sk, sp⟩ | sk2 | ⟨sk, sp⟩
      · simp [Convert]
        split_ifs <;> simp
      · simp [Convert]
        split_ifs <;> simp
      · simp [Convert] at hne ⊢
        split_ifs at hne ⊢ <;> simp_all
    · simp [Convert]
    · simp [Convert]
  · intro h
    rcases h with h | h
    · subst h
      simp [Convert]
    · subst h
      rcases dst with _ | d <;> simp [Convert]
  · intro k p s0 h1 h2
    subst h1
    subst h2
    simp [Convert]
  · intro k s0 h1 h2
    subst h1
    subst h2
    simp [Convert]
  · intro k p s0 h1 hk h2
    subst h1
    subst h2
    simp [Convert, hk]
  · intro k p s0 h1 hk h2 hs
    subst h1
    subst h2
    rcases s0 with ⟨sk, sp⟩ | sk2 | ⟨sk, sp⟩
    · simp [Convert, hk]
    · simp [Convert, hk]
    · simp [IVal.kindOf] at hs
      simp [Convert, hk, hs]
  · intro dk dp sk sp h1 hk h2 hs hr
    subst h1
    subst h2
    simp [Convert, hk, hs, hr]
  · intro hok
    rcases dst with _ | d
    · simp [Convert] at hok
    rcases src with _ | s
    · simp [Convert] at hok
    rcases d with ⟨dk, dp⟩ | dk2 | ⟨vk, vp⟩
    · rcases s with ⟨sk, sp⟩ | sk2 | ⟨sk, sp⟩
      · simp [Convert] at hok
        split_ifs at hok
      · simp [Convert] at hok
        split_ifs at hok
      · simp [Convert] at hok ⊢
        split_ifs at hok ⊢ <;> exact ⟨_, _, rfl⟩
    · simp [Convert] at hok
    · simp [Convert] at hok

/-- C10 witness: `int8` cannot hold an `int64` losslessly (rate −1), so
`Convert` returns the "invalid conversion" error. -/
theorem c10_witness :
    (Convert .a64 (some (.ptrTo .int8 ⟨0, 0⟩)) (some (.val .int64 ⟨5, 0⟩))).1
      = .err "invalid conversion" :=
  (c10_convert_validates .a64 (some (.ptrTo .int8 ⟨0, 0⟩))
      (some (.val .int64 ⟨5, 0⟩))).2.2.2.2.2.2.1
    .int8 ⟨0, 0⟩ .int64 ⟨5, 0⟩ rfl (by decide) rfl (by decide) (by decide)

/-- The two execution paths of `Library.Get`: a cache hit (no builder
invocation, state unchanged) or a miss (builder invoked once, result — or
the zero value on a not-found — stored). -/
theorem Get_cases {T : Type} (x : LibraryM T) (t : GoType) :
    (∃ v, alookup x.m t = some v ∧ x.Get t = (v, x, false)) ∨
    (alookup x.m t = none ∧
      x.Get t = ((x.b t).getD x.zero,
        { x with m := (t, (x.b t).getD x.zero) :: x.m }, true)) := by
  unfold LibraryM.Get
  rcases h : alookup x.m t with _ | v
  · right
    refine ⟨rfl, ?_⟩
    cases hbt : x.b t <;> simp [h, hbt, Option.getD]
  · left
    exact ⟨v, rfl, by simp [h]⟩

/-- One step of `buildCount` over a trace. -/
theorem buildCount_cons {T : Type} (r : GoType) (o : T) (bt : Bool)
    (tr : List (GoType × T × Bool)) (u : GoType) :
    buildCount ((r, o, bt) :: tr) u
      = buildCount tr u + (if r = u ∧ bt = true then 1 else 0) := by
  by_cases h : r = u ∧ bt = true
  · simp [buildCount, List.filter, h.1, h.2]
  · have hf : (decide (r = u) && bt) = false := by
      cases bt with
      | false => simp
      | true =>
        have hru : ¬ r = u := fun he => h ⟨he, rfl⟩
        simp [hru]
    simp [buildCount, List.filter, hf, h]

/-- Run-level invariants of the `Library` cache: every trace output and
every cached entry is the canonical value `(b u).getD z`, the cache only
grows, every requested type ends up cached, an already-cached type is
never rebuilt, and no type is built more than once in a run. -/
theorem runGets_spec {T : Type} (b : GoType → Option T) (z : T) :
    ∀ (ts : List GoType) (x : LibraryM T),
      x.b = b → x.zero = z →
      (∀ u v, alookup x.m u = some v → v = (b u).getD z) →
      (∀ e ∈ (runGets x ts).1, e.2.1 = (b e.1).getD z) ∧
      (∀ u v, alookup (runGets x ts).2.m u = some v → v = (b u).getD z) ∧
      (∀ u, (alookup x.m u).isSome = true →
        (alookup (runGets x ts).2.m u).isSome = true) ∧
      (∀ u, u ∈ ts → (alookup (runGets x ts).2.m u).isSome = true) ∧
      (∀ u, (alookup x.m u).isSome = true → buildCount (runGets x ts).1 u = 0) ∧
      (∀ u, buildCount (runGets x ts).1 u ≤ 1)
  | [], x, hb, hz, hinv => by
      simp only [runGets]
      exact ⟨by simp, hinv, fun u h => h, by simp, fun u _ => by simp [buildCount],
        fun u => by simp [buildCount]⟩
  | r :: ts, x, hb, hz, hinv => by
      rcases Get_cases x r with ⟨v, hlk, hget⟩ | ⟨hlk, hget⟩
      · have ih := runGets_spec b z ts x hb hz hinv
        rcases ih with ⟨ihtr, ihinv, ihmono, ihmem, ihzero, ihle⟩
        have hrun : runGets x (r :: ts)
            = ((r, v, false) :: (runGets x ts).1, (runGets x ts).2) := by
          simp only [runGets, hget]
        rw [hrun]
        refine ⟨?_, ihinv, ihmono, ?_, ?_, ?_⟩
        · intro e he
          rcases List.mem_cons.mp he with he | he
          · rw [he]
            exact hinv r v hlk
          · exact ihtr e he
        · intro u hu
          rcases List.mem_cons.mp hu with hu | hu
          · rw [hu]
            exact ihmono r (by simp [hlk])
          · exact ihmem u hu
        · intro u hu
          rw [buildCount_cons]
          simp [ihzero u hu]
        · intro u
          rw [buildCount_cons]
          simp [ihle u]
      · have hx2 : ({ x with m := (r, (x.b r).getD x.zero) :: x.m } : LibraryM T).b = b := hb
        have hz2 : ({ x with m := (r, (x.b r).getD x.zero) :: x.m } : LibraryM T).zero = z := hz
        have hinv2 : ∀ u v,
            alookup ({ x with m := (r, (x.b r).getD x.zero) :: x.m } : LibraryM T).m u = some v →
              v = (b u).getD z := by
          intro u v hu
          simp only [alookup] at hu
          by_cases he : r = u
          · rw [if_pos he] at hu
            cases hu
            rw [hb, hz, he]
          · rw [if_neg he] at hu
            exact hinv u v hu
        have ih := runGets_spec b z ts _ hx2 hz2 hinv2
        rcases ih with ⟨ihtr, ihinv, ihmono, ihmem, ihzero, ihle⟩
        have hrun : runGets x (r :: ts)
            = ((r, (x.b r).getD x.zero, true)
                :: (runGets ({ x with m := (r, (x.b r).getD x.zero) :: x.m }) ts).1,
              (runGets ({ x with m := (r, (x.b r).getD x.zero) :: x.m }) ts).2) := by
          simp only [runGets, hget]
        rw [hrun]
        have hcached : ∀ u, (alookup x.m u).isSome = true →
            (alookup ({ x with m := (r, (x.b r).getD x.zero) :: x.m } : LibraryM T).m u).isSome
              = true := by
          intro u hu
          simp only [alookup]
          by_cases he : r = u <;> simp [he, hu]
        refine ⟨?_, ihinv, ?_, ?_, ?_, ?_⟩
        · intro e he
          rcases List.mem_cons.mp he with he | he
          · rw [he, hb, hz]
          · exact ihtr e he
        · intro u hu
          exact ihmono u (hcached u hu)
        · intro u hu
          rcases List.mem_cons.mp hu with hu | hu
          · rw [hu]
            exact ihmono r (by simp [alookup])
          · exact ihmem u hu
        · intro u hu
          rw [buildCount_cons]
          have hru : ¬ r = u := by
            intro he
            rw [he] at hlk
            rw [hlk] at hu
            simp at hu
          simp [hru]
          exact ihzero u (hcached u hu)
        · intro u
          by_cases he : r = u
          · subst he
            have h0 : buildCount
                (runGets ({ x with m := (r, (x.b r).getD x.zero) :: x.m }) ts).1 r = 0 := by
              refine ihzero r ?_
              simp only [alookup]
              simp
            rw [buildCount_cons]
            simp [h0]
          · rw [buildCount_cons]
            simp [he]
            exact ihle u

/-- C4: running any sequence of `Get` calls on a fresh `Library`, the
wrapped builder runs at most once per type, every returned value is the
built value — or the configured zero value when the builder reports
not-found — and every requested type ends up cached with exactly that
value, so later `Get`s return it without re-invoking the builder. -/
theorem c4_library_builds_once (T : Type) (b : GoType → Option T) (z : T)
    (ts : List GoType) (t : GoType) :
    buildCount (runGets (NewLibrary b z) ts).1 t ≤ 1 ∧
    (∀ e ∈ (runGets (NewLibrary b z) ts).1, e.2.1 = (b e.1).getD z) ∧
    (t ∈ ts → alookup (runGets (NewLibrary b z) ts).2.m t = some ((b t).getD z)) := by
  have h := runGets_spec b z ts (NewLibrary b z) rfl rfl
    (by intro u v hu; simp [NewLibrary, alookup] at hu)
  rcases h with ⟨htr, hinv, _, hmem, _, hle⟩
  refine ⟨hle t, htr, ?_⟩
  intro ht
  have hs := hmem t ht
  rcases ho : alookup (runGets (NewLibrary b z) ts).2.m t with _ | v
  · rw [ho] at hs
    simp at hs
  · rw [hinv t v ho]


/-- C4 witness: two `Get`s of `bool` (builder yields 7) and one of an
interface type the builder does not cover (zero 99 cached): the builder
runs once for `bool`. -/
theorem c4_witness :
    buildCount (runGets (NewLibrary
        (fun t : GoType => if t = GoType.simple GoKind.bool then some (7 : Nat) else none) 99)
        [GoType.simple GoKind.bool, GoType.simple GoKind.bool, GoType.iface]).1
      (GoType.simple GoKind.bool) ≤ 1 ∧
    (∀ e ∈ (runGets (NewLibrary
        (fun t : GoType => if t = GoType.simple GoKind.bool then some (7 : Nat) else none) 99)
        [GoType.simple GoKind.bool, GoType.simple GoKind.bool, GoType.iface]).1,
      e.2.1 = ((fun t : GoType =>
        if t = GoType.simple GoKind.bool then some (7 : Nat) else none) e.1).getD 99) ∧
    (GoType.simple GoKind.bool
        ∈ ([GoType.simple GoKind.bool, GoType.simple GoKind.bool, GoType.iface] : List GoType) →
      alookup (runGets (NewLibrary
          (fun t : GoType => if t = GoType.simple GoKind.bool then some (7 : Nat) else none) 99)
          [GoType.simple GoKind.bool, GoType.simple GoKind.bool, GoType.iface]).2.m
        (GoType.simple GoKind.bool)
        = some (((fun t : GoType =>
            if t = GoType.simple GoKind.bool then some (7 : Nat) else none)
          (GoType.simple GoKind.bool)).getD 99)) :=
  c4_library_builds_once Nat _ 99 _ _

/-- Prepending an entry cannot remove an existing association. -/
theorem alookup_cons_isSome {κ α : Type} [DecidableEq κ] (p : κ × α)
    (l : List (κ × α)) (k : κ) (h : (alookup l k).isSome = true) :
    (alookup (p :: l) k).isSome = true := by
  rcases p with ⟨k0, v⟩
  by_cases he : k0 = k <;> simp [alookup, he, h]

/-- The C8 invariant: every kind in the numeric registry has a basic
entry under the base of that kind's own basic type (`numeric.Types[k]`,
i.e. `GoType.simple k`). -/
def NumMirrored (a : Arch) (s : SchemeState) : Prop :=
  ∀ k : GoKind, (alookup s.numeric k).isSome = true →
    (alookup s.basic (baseOf a (.simple k))).isSome = true

/-- `loadBasic` preserves the mirror invariant: whenever it adds a
numeric entry for `t.kind`, it also adds the basic entry under
`baseOf t`, which is the base of `t.kind`'s basic type. -/
theorem numMirrored_loadBasic (a : Arch) (s : SchemeState) (t : GoType)
    (f : Impl) (orig : Bool) (h : NumMirrored a s) :
    NumMirrored a (loadBasic a s t f orig) := by
  intro k hk
  unfold loadBasic loadSpecific at hk ⊢
  by_cases hcond : (orig && isNumericKind t.kind) = true
  · rw [if_pos hcond] at hk ⊢
    simp only [alookup] at hk
    by_cases hek : t.kind = k
    · have hnum : isNumericKind t.kind = true := (Bool.and_eq_true _ _).mp hcond |>.2
      have hbt : baseOf a t = [(Alias a t.kind).toByte] := baseOf_numeric a t hnum
      have hbk : baseOf a (GoType.simple k) = [(Alias a t.kind).toByte] := by
        rw [← hek]
        rfl
      simp only [alookup, hbt, hbk]
      simp
    · rw [if_neg hek] at hk
      exact alookup_cons_isSome _ _ _ (h k hk)
  · rw [if_neg hcond] at hk ⊢
    exact alookup_cons_isSome _ _ _ (h k hk)

/-- `loadGeneric` and `loadSpecific` touch neither registry of the
invariant. -/
theorem numMirrored_loadGeneric (a : Arch) (s : SchemeState) (k0 : GoKind)
    (f : Impl) (h : NumMirrored a s) : NumMirrored a (loadGeneric s k0 f) := by
  intro k hk
  exact h k hk

/-- `loadSpecific` preserves the mirror invariant. -/
theorem numMirrored_loadSpecific (a : Arch) (s : SchemeState) (t : GoType)
    (f : Impl) (h : NumMirrored a s) : NumMirrored a (loadSpecific s t f) := by
  intro k hk
  exact h k hk

/-- `Load` preserves the mirror invariant. -/
theorem numMirrored_Load (a : Arch) (s : SchemeState) (t : GoType) (id : Nat)
    (h : NumMirrored a s) : NumMirrored a (Load a s t id) := by
  unfold Load
  split_ifs
  · exact numMirrored_loadBasic a s t _ true h
  · exact numMirrored_loadGeneric a s _ _ h
  · exact numMirrored_loadGeneric a s _ _ h
  · exact numMirrored_loadGeneric a s _ _ h
  · exact numMirrored_loadGeneric a s _ _ h
  · exact numMirrored_loadGeneric a s _ _ h
  · exact numMirrored_loadGeneric a s _ _ h
  · exact numMirrored_loadSpecific a s t _ h

/-- The `fill` half of `Build` preserves the mirror invariant. -/
theorem numMirrored_fill (a : Arch) (fuel : Nat) (s s2 : SchemeState)
    (h : NumMirrored a s) (hf : fill a fuel s = some (.ok s2)) :
    NumMirrored a s2 := by
  unfold fill at hf
  split_ifs at hf
  · cases hf
    exact h
  · cases hf
    exact h
  · rcases hr : asType fuel (baseOf a s.fixedType) with _ | r
    · rw [hr] at hf
      cases hf
    · rw [hr] at hf
      rcases r with e | t
      · cases hf
      · rcases t with _ | t
        · cases hf
        · cases hf
          exact numMirrored_loadBasic a s t _ true h

/-- A dispatch call preserves the mirror invariant: its only registry
writes are cache entries, basic entries (the substitution's `loadBasic`
with `original = false`, or the invalid marker), never numeric entries. -/
theorem numMirrored_dispatch (a : Arch) (dir : Dir) (s : SchemeState)
    (enum : List (GoKind × Impl)) (t : GoType) (h : NumMirrored a s) :
    NumMirrored a (dispatch a dir s enum t).2 := by
  unfold dispatch
  rcases alookup s.cache t with _ | c
  · rcases alookup s.specific t with _ | f
    · rcases alookup s.generic (kGenOf t) with _ | f
      · rcases alookup s.basic (baseOf a t) with _ | f
        · by_cases hn : isNumericKind t.kind = true
          · rw [if_pos hn]
            rcases numericScan a dir t.kind enum with _ | q
            · intro k hk
              exact alookup_cons_isSome _ _ _ (h k hk)
            · rcases q with ⟨kk, g⟩
              have h2 := numMirrored_loadBasic a s (.simple t.kind)
                (.subst dir kk g) false h
              intro k hk
              exact h2 k hk
          · rw [if_neg hn]
            intro k hk
            exact h k hk
        · intro k hk
          exact h k hk
      · intro k hk
        exact h k hk
    · intro k hk
      exact h k hk
  · exact h

/-- Any post-construction operation preserves the mirror invariant. -/
theorem numMirrored_applyOp (a : Arch) (dir : Dir) (s : SchemeState) (op : Op)
    (h : NumMirrored a s) : NumMirrored a (applyOp a dir s op) := by
  rcases op with ⟨t, id⟩ | fuel | ⟨t, enum⟩
  · exact numMirrored_Load a s t id h
  · simp only [applyOp]
    split
    · rename_i s2 heq
      exact numMirrored_fill a fuel s s2 h heq
    · exact h
  · exact numMirrored_dispatch a dir s enum t h

/-- C8: after any sequence of `Load`, `Build` and dispatch-call
operations starting from a fresh `Scheme`/`Inverse`, every kind in the
numeric registry has a basic-registry entry under (the hash of) that
kind's own base; the numeric registry stays a mirrored subset of basic. -/
theorem c8_numeric_mirrored (a : Arch) (dir : Dir) (fixed : GoType)
    (ops : List Op) : NumMirrored a (applyOps a dir (MakeScheme fixed) ops) := by
  have h0 : NumMirrored a (MakeScheme fixed) := by
    intro k hk
    simp [MakeScheme, alookup] at hk
  clear h0
  have main : ∀ (l : List Op) (s : SchemeState), NumMirrored a s →
      NumMirrored a (applyOps a dir s l) := by
    intro l
    induction l with
    | nil => intro s hs; exact hs
    | cons op rest ih =>
      intro s hs
      exact ih (applyOp a dir s op) (numMirrored_applyOp a dir s op hs)
  refine main ops (MakeScheme fixed) ?_
  intro k hk
  simp [MakeScheme, alookup] at hk

/-- C8 witness: after loading an `int64` rule, the numeric registry holds
`Int64` and the basic registry holds the entry under `int64`'s base. -/
theorem c8_witness :
    (alookup (applyOps .a64 .scheme (MakeScheme (.simple .string))
        [.load (.simple .int64) 1]).basic
      (baseOf .a64 (.simple .int64))).isSome = true :=
  c8_numeric_mirrored .a64 .scheme (.simple .string) [.load (.simple .int64) 1]
    .int64 (by decide)

end Conv
